import Mathlib

/-!
# Tag adapter of the `timestreaminfluxdb` service package

A shallow embedding of `internal/service/timestreaminfluxdb/tags.go`.

Conventions of the embedding:

* A Go `map[string]string` that the adapter only reads (length, iteration,
  lookup) is represented by the list of its entries (`RawMap`).  Reading a key
  takes the first entry carrying that key; a Go map holds every key once.  A
  `nil` map and an empty map read identically in Go (length `0`, every lookup
  absent), so a map that is only read is given by its entries alone.
* A Go `map[string]string` result that the source may return as `nil`
  (the result of `getTagsIn`) is an `Option RawMap`: `none` is the `nil` map,
  `some m` is an allocated map with the entries `m`, so `some []` is the
  allocated empty map and differs from `nil`.
* A Go pointer result `*string` is an `Option String`, `nil` being `none`.
* A Go `error` result is an `Option GoError`, `nil` being `none`.
* Mutation is explicit state passing.  The Go functions mutate two things
  through pointers: the `InContext` reachable from the `context.Context`
  (assignment to `TagsOut`), and the remote client (which answers a call).
  Every embedded function that can mutate one of them returns its new value.
* `InContext.tagsOutWrites` and `Client.calls` are ghost fields: they count
  the assignments made to `TagsOut` and record the remote calls made, so that
  "no write happened" and "exactly one call happened" can be stated.
-/

set_option autoImplicit false
set_option linter.unusedVariables false

/-- A Go `map[string]string`, as the list of its entries. -/
abbrev RawMap := List (String × String)

/-- A Go `error` value that is not `nil`.  `remote msg` stands for any error
value that is not the empty-result error; `emptyResult` is the value built by
`tfresource.NewEmptyResultError(nil)`. -/
inductive GoError where
  | remote (msg : String)
  | emptyResult
  deriving DecidableEq, Repr

namespace tfresource

/-- Modelled from the spec: `tfresource.NewEmptyResultError` (package
`internal/tfresource`, not among the source files embedded here) builds the "distinct
NotFound-style error separating no value from fetch failed".  Its argument,
the last request, is `nil` at the only call site. -/
def NewEmptyResultError (lastRequest : Option Unit) : GoError :=
  GoError.emptyResult

end tfresource

namespace tftags

/-- Modelled from the spec: `tftags.KeyValueTags` (package `internal/tags`,
not among the source files embedded here) is the TagSet, a "mapping from tag key
(string) to tag value (string)" that "always carries a present value when a
key exists". -/
structure KeyValueTags where
  entries : List (String × String)
  deriving DecidableEq, Repr

/-- The zero value of the Go type: the `nil` TagSet, which has no key. -/
instance : Inhabited KeyValueTags := ⟨⟨[]⟩⟩

/-- Modelled from the spec: per-operation TagContext "with two slots",
DeclaredTags (`TagsIn`) and ObservedTags (`TagsOut`), each present or absent
(`option.Option[KeyValueTags]`).  `tagsOutWrites` is a ghost counter of the
assignments made to `TagsOut`. -/
structure InContext where
  TagsIn : Option KeyValueTags
  TagsOut : Option KeyValueTags
  tagsOutWrites : Nat
  deriving DecidableEq, Repr

/-- The statement `inContext.TagsOut = v` of the Go source. -/
def InContext.assignTagsOut (inContext : InContext) (v : Option KeyValueTags) : InContext :=
  { inContext with TagsOut := v, tagsOutWrites := inContext.tagsOutWrites + 1 }

end tftags

/-- The part of a `context.Context` the adapter can observe: the tag channel
it carries, if it carries one.  A context that "participates in the channel"
carries `some` holder. -/
structure Context where
  tagChannel : Option tftags.InContext
  deriving DecidableEq, Repr

namespace tftags

/-- Modelled from the spec: `tftags.FromContext` yields the TagContext of a
participating context, and reports `ok = false` (`none`) otherwise. -/
def FromContext (ctx : Context) : Option InContext :=
  ctx.tagChannel

/-- Modelled from the spec: `tftags.New` wraps a raw mapping into a TagSet
"with no filtering or transformation"; on an untyped `nil` (`none`) it
gives the empty TagSet. -/
def New (ctx : Context) (i : Option RawMap) : KeyValueTags :=
  match i with
  | none => ⟨[]⟩
  | some tags => ⟨tags⟩

/-- Modelled from the spec: `KeyValueTags.Map` is the "pure helper converting
a TagSet to a raw mapping". -/
def KeyValueTags.Map (tags : KeyValueTags) : RawMap :=
  tags.entries

/-- Modelled from the spec: `KeyValueTags.KeyExists` tells whether the key is
one of the TagSet's keys. -/
def KeyValueTags.KeyExists (tags : KeyValueTags) (key : String) : Bool :=
  tags.entries.any (fun kv => kv.1 == key)

/-- Modelled from the spec: `KeyValueTags.KeyValue` is a pointer to the value
the TagSet maps the key to, `nil` when the key is not in it. -/
def KeyValueTags.KeyValue (tags : KeyValueTags) (key : String) : Option String :=
  tags.entries.lookup key

end tftags

namespace option

/-- Modelled from the spec: `option.Some` makes a slot "present". -/
def Some (v : tftags.KeyValueTags) : Option tftags.KeyValueTags :=
  some v

/-- Modelled from the spec: `Option.UnwrapOrDefault` gives the held value, or
the zero value of the type when the slot is absent. -/
def UnwrapOrDefault (o : Option tftags.KeyValueTags) : tftags.KeyValueTags :=
  match o with
  | some v => v
  | none => default

end option

namespace aws

/-- The SDK helper `aws.String`: a pointer to the given string. -/
def String (v : String) : Option String :=
  some v

end aws

namespace timestreaminfluxdb

/-- A functional option `func(*timestreaminfluxdb.Options)`; opaque to the
adapter, which only passes it on. -/
structure OptFn where
  id : Nat
  deriving DecidableEq, Repr

/-- The SDK request type: `ResourceArn *string`. -/
structure ListTagsForResourceInput where
  ResourceArn : Option String
  deriving DecidableEq, Repr

/-- The SDK response type: `Tags map[string]string`. -/
structure ListTagsForResourceOutput where
  Tags : RawMap
  deriving DecidableEq, Repr

/-- One recorded call of the remote List capability. -/
structure Call where
  input : ListTagsForResourceInput
  optFns : List OptFn
  deriving DecidableEq, Repr

/-- Modelled from the spec: the Remote Tag Client, a "capability to list tags
given a resource identifier", `List(identifier) -> (mapping, error)`, as a
stub that records its calls.  `respond` is the stub's behaviour; it may
depend on the calls made so far, so a stub can fail once and succeed later. -/
structure Client where
  calls : List Call
  respond : List Call → Call → Except GoError ListTagsForResourceOutput

/-- One remote call: the stub answers and records the call. -/
def Client.ListTagsForResource (conn : Client) (input : ListTagsForResourceInput)
    (optFns : List OptFn) : Except GoError ListTagsForResourceOutput × Client :=
  (conn.respond conn.calls ⟨input, optFns⟩,
   { conn with calls := conn.calls ++ [⟨input, optFns⟩] })

end timestreaminfluxdb

namespace conns

/-- Modelled from the spec: the connection-management collaborator, of which
the adapter uses only the accessor of the service client. -/
structure AWSClient where
  TimestreamInfluxDBClient : timestreaminfluxdb.Client

end conns

/-- A Go value of type `any` handed over as `meta`: an `*conns.AWSClient`, or
a value of some other dynamic type. -/
inductive Meta where
  | awsClient (c : conns.AWSClient)
  | other

namespace timestreaminfluxdb

/-- Source `KeyValueTags`: creates tftags.KeyValueTags from timestreaminfluxdb service tags. -/
def KeyValueTags (ctx : Context) (tags : RawMap) : tftags.KeyValueTags :=
  tftags.New ctx (some tags)

/-- Source `Tags`: returns timestreaminfluxdb service tags. -/
def Tags (tags : tftags.KeyValueTags) : RawMap :=
  tags.Map

/-- Source `listTags`: lists timestreaminfluxdb service tags.  Result: the TagSet, the error, and the
client after the call. -/
def listTags (ctx : Context) (conn : Client) (identifier : String) (optFns : List OptFn) :
    (tftags.KeyValueTags × Option GoError) × Client :=
  let input : ListTagsForResourceInput := { ResourceArn := aws.String identifier }
  match conn.ListTagsForResource input optFns with
  | (Except.error err, conn1) => ((tftags.New ctx none, some err), conn1)
  | (Except.ok output, conn1) => ((KeyValueTags ctx output.Tags, none), conn1)

/-- Source `GetTag`: fetches an individual timestreaminfluxdb service tag for a
resource.  Result: the
value pointer, the error, and the client after the call. -/
def GetTag (ctx : Context) (conn : Client) (identifier key : String) (optFns : List OptFn) :
    (Option String × Option GoError) × Client :=
  match listTags ctx conn identifier optFns with
  | ((listTags, some err), conn1) => ((none, some err), conn1)
  | ((listTags, none), conn1) =>
    if !listTags.KeyExists key then
      ((none, some (tfresource.NewEmptyResultError none)), conn1)
    else
      ((listTags.KeyValue key, none), conn1)

/-- The receiver type of `ListTags`; it has no field the adapter reads. -/
structure servicePackage where
  deriving DecidableEq, Repr

/-- Source `ListTags`: lists timestreaminfluxdb service tags and sets them in
Context.  Result: `none`
when the type assertion on `meta` panics; otherwise the error, the context
after the call and the client after the call. -/
def servicePackage.ListTags (p : servicePackage) (ctx : Context) (meta : Meta)
    (identifier : String) : Option (Option GoError × Context × Client) :=
  match meta with
  | Meta.other => none
  | Meta.awsClient c =>
    match listTags ctx c.TimestreamInfluxDBClient identifier [] with
    | ((tags, some err), conn1) => some (some err, ctx, conn1)
    | ((tags, none), conn1) =>
      match tftags.FromContext ctx with
      | some inContext =>
        some (none, { ctx with tagChannel := some (inContext.assignTagsOut (option.Some tags)) }, conn1)
      | none => some (none, ctx, conn1)

/-- Source `getTagsIn`: returns timestreaminfluxdb service tags from Context;
nil is returned if there are no input tags.  Result: `none` for the `nil` map
of the final `return nil`, `some tags` for the map `tags` returned under the
guard `len(tags) > 0`. -/
def getTagsIn (ctx : Context) : Option RawMap :=
  match tftags.FromContext ctx with
  | some inContext =>
    let tags := Tags (option.UnwrapOrDefault inContext.TagsIn)
    if tags.length > 0 then some tags else none
  | none => none

/-- Source `setTagsOut`: sets timestreaminfluxdb service tags in Context.  Result: the context after the
call. -/
def setTagsOut (ctx : Context) (tags : RawMap) : Context :=
  match tftags.FromContext ctx with
  | some inContext =>
    { ctx with tagChannel := some (inContext.assignTagsOut (option.Some (KeyValueTags ctx tags))) }
  | none => ctx

/-- The state a sequence of adapter calls threads through: the context of the
operation and the remote client. -/
structure World where
  ctx : Context
  conn : Client

/-- One adapter operation with its arguments. -/
inductive AdapterOp where
  | ListTags (identifier : String)
  | setTagsOut (tags : RawMap)
  | getTagsIn
  | GetTag (identifier key : String) (optFns : List OptFn)
  | listTags (identifier : String) (optFns : List OptFn)
  deriving DecidableEq, Repr

/-- The operations whose source text contains an assignment to `TagsOut`. -/
def AdapterOp.assignsTagsOut : AdapterOp → Bool
  | AdapterOp.ListTags _ => true
  | AdapterOp.setTagsOut _ => true
  | AdapterOp.getTagsIn => false
  | AdapterOp.GetTag _ _ _ => false
  | AdapterOp.listTags _ _ => false

/-- Effect of one adapter operation on the threaded state.  `ListTags` gets
its client from an `*conns.AWSClient`; `getTagsIn`, `GetTag` and `listTags`
have no context result, and the last two leave a client that has answered. -/
def AdapterOp.apply (w : World) (op : AdapterOp) : World :=
  match op with
  | AdapterOp.ListTags identifier =>
    match servicePackage.ListTags {} w.ctx (Meta.awsClient ⟨w.conn⟩) identifier with
    | some (err, ctx1, conn1) => ⟨ctx1, conn1⟩
    | none => w
  | AdapterOp.setTagsOut tags => ⟨timestreaminfluxdb.setTagsOut w.ctx tags, w.conn⟩
  | AdapterOp.getTagsIn => w
  | AdapterOp.GetTag identifier key optFns => ⟨w.ctx, (timestreaminfluxdb.GetTag w.ctx w.conn identifier key optFns).2⟩
  | AdapterOp.listTags identifier optFns => ⟨w.ctx, (timestreaminfluxdb.listTags w.ctx w.conn identifier optFns).2⟩

/-- A finite sequence of adapter operations, applied left to right. -/
def runOps (w : World) (ops : List AdapterOp) : World :=
  ops.foldl AdapterOp.apply w

/-- Number of assignments made so far to the `TagsOut` slot of a context
(none when the context carries no tag channel). -/
def tagsOutWrites (ctx : Context) : Nat :=
  match tftags.FromContext ctx with
  | some inContext => inContext.tagsOutWrites
  | none => 0

/-- The ObservedTags slot of a context, absent also when the context carries
no tag channel. -/
def observedTags (ctx : Context) : Option tftags.KeyValueTags :=
  match tftags.FromContext ctx with
  | some inContext => inContext.TagsOut
  | none => none

/-- The Go builtin `len` on a map value that may be `nil`. -/
def mapLen (m : Option RawMap) : Nat :=
  match m with
  | none => 0
  | some entries => entries.length

/-- Reference reading of ReadDeclared, following the specification: the raw
projection of DeclaredTags when the context participates and DeclaredTags is
present with a TagSet that is not empty; the empty result, `nil`, when the
context does not participate, or DeclaredTags is absent, or DeclaredTags
holds an empty TagSet. -/
def ReadDeclared_reference (ctx : Context) : Option RawMap :=
  match ctx.tagChannel with
  | none => none
  | some holder =>
    match holder.TagsIn with
    | none => none
    | some declared => if declared.entries.isEmpty then none else some declared.Map

/-- Reference reading of WriteObserved, following the specification: construct
a TagSet from the raw mapping, then assign it to ObservedTags when the
context participates; change nothing otherwise. -/
def WriteObserved_reference (ctx : Context) (m : RawMap) : Context :=
  let tagSet : tftags.KeyValueTags := tftags.New ctx (some m)
  match ctx.tagChannel with
  | none => ctx
  | some holder =>
    ⟨some { holder with TagsOut := some tagSet, tagsOutWrites := holder.tagsOutWrites + 1 }⟩

/-- A stub whose List always succeeds with the mapping `M`. -/
def stubReturning (M : RawMap) : Client :=
  ⟨[], fun _ _ => Except.ok ⟨M⟩⟩

/-- A stub whose List always fails with the error `E`. -/
def stubFailing (E : GoError) : Client :=
  ⟨[], fun _ _ => Except.error E⟩

/-- A stub whose first List fails with `E` and whose later ones succeed with
`M`. -/
def stubFailingOnce (E : GoError) (M : RawMap) : Client :=
  ⟨[], fun calls _ => if calls.isEmpty then Except.error E else Except.ok ⟨M⟩⟩

/-- The mapping of the specification scenario. -/
def scenarioTags : RawMap :=
  [("env", "prod"), ("team", "infra")]

/-- A participating context with both slots absent and no write made. -/
def freshContext : Context :=
  ⟨some ⟨none, none, 0⟩⟩

/-- A context that does not participate in the tag channel. -/
def plainContext : Context :=
  ⟨none⟩

end timestreaminfluxdb

/-! ## Lemmas on the list-backed map -/

/-- A key is found by the existence test exactly when the lookup gives a
value. -/
theorem any_key_eq_isSome_lookup (T : RawMap) (key : String) :
    T.any (fun kv => kv.1 == key) = (T.lookup key).isSome := by
  induction T with
  | nil => rfl
  | cons kv rest ih =>
    obtain ⟨k, v⟩ := kv
    by_cases hk : key = k
    · subst hk
      simp [List.lookup]
    · have hk1 : (key == k) = false := beq_false_of_ne hk
      have hk2 : (k == key) = false := beq_false_of_ne (fun h => hk h.symm)
      simp only [List.any_cons, List.lookup, hk1, hk2, Bool.false_or]
      exact ih

/-- The existence test is membership among the keys. -/
theorem any_key_iff_mem_keys (T : RawMap) (key : String) :
    T.any (fun kv => kv.1 == key) = true ↔ key ∈ T.map Prod.fst := by
  simp only [List.any_eq_true, List.mem_map, beq_iff_eq]

/-- In a map whose keys are pairwise distinct, the lookup of a key gives the
value of the entry carrying that key. -/
theorem lookup_of_mem_of_nodup (T : RawMap) (key v : String)
    (hnodup : (T.map Prod.fst).Nodup) (hmem : (key, v) ∈ T) :
    T.lookup key = some v := by
  induction T with
  | nil => cases hmem
  | cons kv rest ih =>
    obtain ⟨k, u⟩ := kv
    simp only [List.map_cons, List.nodup_cons] at hnodup
    rcases List.mem_cons.mp hmem with h | h
    · cases h
      simp [List.lookup]
    · have hne : ¬ key = k := by
        intro hk
        subst hk
        exact hnodup.1 (List.mem_map.mpr ⟨(key, v), h, rfl⟩)
      have hk1 : (key == k) = false := beq_false_of_ne hne
      simp only [List.lookup, hk1]
      exact ih hnodup.2 h

namespace timestreaminfluxdb

/-! ## How the adapter functions unfold on the answer of the one remote call -/

/-- Source `listTags` when the remote call succeeds. -/
theorem listTags_ok (ctx : Context) (conn : Client) (identifier : String)
    (optFns : List OptFn) (out : ListTagsForResourceOutput)
    (h : conn.respond conn.calls ⟨⟨some identifier⟩, optFns⟩ = Except.ok out) :
    listTags ctx conn identifier optFns =
      ((KeyValueTags ctx out.Tags, none),
       { conn with calls := conn.calls ++ [⟨⟨some identifier⟩, optFns⟩] }) := by
  simp [listTags, Client.ListTagsForResource, aws.String, h]

/-- Source `listTags` when the remote call fails. -/
theorem listTags_error (ctx : Context) (conn : Client) (identifier : String)
    (optFns : List OptFn) (E : GoError)
    (h : conn.respond conn.calls ⟨⟨some identifier⟩, optFns⟩ = Except.error E) :
    listTags ctx conn identifier optFns =
      ((tftags.New ctx none, some E),
       { conn with calls := conn.calls ++ [⟨⟨some identifier⟩, optFns⟩] }) := by
  simp [listTags, Client.ListTagsForResource, aws.String, h]

/-- Source `listTags` always leaves the client with exactly one more recorded
call, whose request carries the identifier. -/
theorem listTags_client (ctx : Context) (conn : Client) (identifier : String)
    (optFns : List OptFn) :
    (listTags ctx conn identifier optFns).2 =
      { conn with calls := conn.calls ++ [⟨⟨some identifier⟩, optFns⟩] } := by
  cases h : conn.respond conn.calls ⟨⟨some identifier⟩, optFns⟩ with
  | error E => rw [listTags_error ctx conn identifier optFns E h]
  | ok out => rw [listTags_ok ctx conn identifier optFns out h]

/-- Source `GetTag` always leaves the client that `listTags` leaves. -/
theorem GetTag_client (ctx : Context) (conn : Client) (identifier key : String)
    (optFns : List OptFn) :
    (GetTag ctx conn identifier key optFns).2 = (listTags ctx conn identifier optFns).2 := by
  cases h : conn.respond conn.calls ⟨⟨some identifier⟩, optFns⟩ with
  | error E => simp [GetTag, listTags_error ctx conn identifier optFns E h]
  | ok out =>
    simp only [GetTag, listTags_ok ctx conn identifier optFns out h]
    split <;> rfl

/-- Source `GetTag` when the remote call succeeds. -/
theorem GetTag_ok (ctx : Context) (conn : Client) (identifier key : String)
    (optFns : List OptFn) (T : RawMap)
    (h : conn.respond conn.calls ⟨⟨some identifier⟩, optFns⟩ = Except.ok ⟨T⟩) :
    (GetTag ctx conn identifier key optFns).1 =
      if T.any (fun kv => kv.1 == key) then (T.lookup key, none)
      else (none, some GoError.emptyResult) := by
  simp only [GetTag, listTags_ok ctx conn identifier optFns ⟨T⟩ h, KeyValueTags, tftags.New,
    tftags.KeyValueTags.KeyExists, tftags.KeyValueTags.KeyValue, tfresource.NewEmptyResultError]
  cases T.any (fun kv => kv.1 == key) <;> simp

/-- Source `GetTag` when the remote call fails. -/
theorem GetTag_error (ctx : Context) (conn : Client) (identifier key : String)
    (optFns : List OptFn) (E : GoError)
    (h : conn.respond conn.calls ⟨⟨some identifier⟩, optFns⟩ = Except.error E) :
    (GetTag ctx conn identifier key optFns).1 = (none, some E) := by
  simp [GetTag, listTags_error ctx conn identifier optFns E h]

/-- Source `ListTags` when the remote call succeeds. -/
theorem servicePackage_ListTags_ok (p : servicePackage) (ctx : Context) (conn : Client)
    (identifier : String) (M : RawMap)
    (h : conn.respond conn.calls ⟨⟨some identifier⟩, []⟩ = Except.ok ⟨M⟩) :
    servicePackage.ListTags p ctx (Meta.awsClient ⟨conn⟩) identifier =
      some (none,
        (match ctx.tagChannel with
         | some inContext =>
           ⟨some ⟨inContext.TagsIn, some (KeyValueTags ctx M), inContext.tagsOutWrites + 1⟩⟩
         | none => ctx),
        { conn with calls := conn.calls ++ [⟨⟨some identifier⟩, []⟩] }) := by
  simp only [servicePackage.ListTags, listTags_ok ctx conn identifier [] ⟨M⟩ h,
    tftags.FromContext, option.Some, tftags.InContext.assignTagsOut]
  cases ctx.tagChannel <;> rfl

/-- Source `ListTags` when the remote call fails. -/
theorem servicePackage_ListTags_error (p : servicePackage) (ctx : Context) (conn : Client)
    (identifier : String) (E : GoError)
    (h : conn.respond conn.calls ⟨⟨some identifier⟩, []⟩ = Except.error E) :
    servicePackage.ListTags p ctx (Meta.awsClient ⟨conn⟩) identifier =
      some (some E, ctx, { conn with calls := conn.calls ++ [⟨⟨some identifier⟩, []⟩] }) := by
  simp [servicePackage.ListTags, listTags_error ctx conn identifier [] E h]

/-! ## Single-key lookup -/

/-- C1: when the List call of `GetTag` succeeds with the mapping `T`, a key of
`T` gives a pointer to the value `T` maps it to and no error (with pairwise
distinct keys, the value of the entry carrying the key); a key that is not in
`T` gives a nil pointer and the empty-result error; the result is never
(nil, nil), and the only error possible is the empty-result error. -/
theorem GetTag_value_or_not_found (ctx : Context) (conn : Client) (identifier key : String)
    (optFns : List OptFn) (T : RawMap)
    (hList : conn.respond conn.calls ⟨⟨some identifier⟩, optFns⟩ = Except.ok ⟨T⟩) :
    (key ∈ T.map Prod.fst →
      ∃ v, T.lookup key = some v ∧
        (GetTag ctx conn identifier key optFns).1 = (some v, none)) ∧
    ((T.map Prod.fst).Nodup → ∀ v, (key, v) ∈ T →
      (GetTag ctx conn identifier key optFns).1 = (some v, none)) ∧
    (key ∉ T.map Prod.fst →
      (GetTag ctx conn identifier key optFns).1 =
        (none, some (tfresource.NewEmptyResultError none))) ∧
    (GetTag ctx conn identifier key optFns).1 ≠ (none, none) ∧
    (∀ E, (GetTag ctx conn identifier key optFns).1.2 = some E →
      E = tfresource.NewEmptyResultError none) := by
  have hGet := GetTag_ok ctx conn identifier key optFns T hList
  have hIn : key ∈ T.map Prod.fst →
      ∃ v, T.lookup key = some v ∧
        (GetTag ctx conn identifier key optFns).1 = (some v, none) := by
    intro hmem
    have hany := (any_key_iff_mem_keys T key).mpr hmem
    have hsome : (T.lookup key).isSome = true := by
      rw [← any_key_eq_isSome_lookup]
      exact hany
    obtain ⟨v, hv⟩ := Option.isSome_iff_exists.mp hsome
    exact ⟨v, hv, by rw [hGet, if_pos hany, hv]⟩
  have hOut : key ∉ T.map Prod.fst →
      (GetTag ctx conn identifier key optFns).1 = (none, some GoError.emptyResult) := by
    intro hmem
    have hany : ¬ (T.any (fun kv => kv.1 == key) = true) :=
      fun h => hmem ((any_key_iff_mem_keys T key).mp h)
    rw [hGet, if_neg hany]
  refine ⟨hIn, ?_, hOut, ?_, ?_⟩
  · intro hnodup v hmem
    obtain ⟨u, hu, hres⟩ := hIn (List.mem_map.mpr ⟨(key, v), hmem, rfl⟩)
    rw [lookup_of_mem_of_nodup T key v hnodup hmem] at hu
    cases hu
    exact hres
  · by_cases hmem : key ∈ T.map Prod.fst
    · obtain ⟨v, _, hres⟩ := hIn hmem
      rw [hres]
      simp
    · rw [hOut hmem]
      simp
  · intro E hE
    by_cases hmem : key ∈ T.map Prod.fst
    · obtain ⟨v, _, hres⟩ := hIn hmem
      rw [hres] at hE
      cases hE
    · rw [hOut hmem] at hE
      cases hE
      rfl

/-- Witness of C1 on the scenario of the specification: the stub lists
env=prod, team=infra; the key env gives prod, the key missing gives the
empty-result error. -/
theorem GetTag_value_or_not_found_witness :
    (GetTag freshContext (stubReturning scenarioTags) "arn:x" "env" []).1 =
      (some "prod", none) ∧
    (GetTag freshContext (stubReturning scenarioTags) "arn:x" "missing" []).1 =
      (none, some GoError.emptyResult) :=
  ⟨(GetTag_value_or_not_found freshContext (stubReturning scenarioTags) "arn:x" "env" []
      scenarioTags rfl).2.1 (by decide) "prod" (by decide),
   (GetTag_value_or_not_found freshContext (stubReturning scenarioTags) "arn:x" "missing" []
      scenarioTags rfl).2.2.1 (by decide)⟩

/-! ## Propagation of a fetch failure -/

/-- C2: when the remote List call fails with the error `E`, `listTags`,
`GetTag` and `ListTags` each return exactly `E`; `GetTag` returns a nil value
with it; so none of them returns the empty-result error unless `E` is that
error. -/
theorem fetch_error_propagates_unchanged (p : servicePackage) (ctx : Context) (conn : Client)
    (identifier key : String) (optFns : List OptFn) (E : GoError)
    (hFns : conn.respond conn.calls ⟨⟨some identifier⟩, optFns⟩ = Except.error E)
    (hNoFns : conn.respond conn.calls ⟨⟨some identifier⟩, []⟩ = Except.error E) :
    (listTags ctx conn identifier optFns).1.2 = some E ∧
    (GetTag ctx conn identifier key optFns).1 = (none, some E) ∧
    (servicePackage.ListTags p ctx (Meta.awsClient ⟨conn⟩) identifier).map (fun r => r.1) =
      some (some E) ∧
    (E ≠ tfresource.NewEmptyResultError none →
      (listTags ctx conn identifier optFns).1.2 ≠ some (tfresource.NewEmptyResultError none) ∧
      (GetTag ctx conn identifier key optFns).1.2 ≠ some (tfresource.NewEmptyResultError none) ∧
      (servicePackage.ListTags p ctx (Meta.awsClient ⟨conn⟩) identifier).map (fun r => r.1) ≠
        some (some (tfresource.NewEmptyResultError none))) := by
  have h1 : (listTags ctx conn identifier optFns).1.2 = some E := by
    rw [listTags_error ctx conn identifier optFns E hFns]
  have h2 := GetTag_error ctx conn identifier key optFns E hFns
  have h3 : (servicePackage.ListTags p ctx (Meta.awsClient ⟨conn⟩) identifier).map
      (fun r => r.1) = some (some E) := by
    rw [servicePackage_ListTags_error p ctx conn identifier E hNoFns]
    rfl
  refine ⟨h1, h2, h3, ?_⟩
  intro hne
  rw [h1, h2, h3]
  refine ⟨?_, ?_, ?_⟩
  · intro h
    exact hne (Option.some.inj h)
  · intro h
    exact hne (Option.some.inj h)
  · intro h
    exact hne (Option.some.inj (Option.some.inj h))

/-- Witness of C2 on the scenario of the specification: the stub fails with
the error throttled, and all three operations return that error. -/
theorem fetch_error_propagates_unchanged_witness :
    (listTags freshContext (stubFailing (GoError.remote "throttled")) "arn:x" []).1.2 =
      some (GoError.remote "throttled") ∧
    (GetTag freshContext (stubFailing (GoError.remote "throttled")) "arn:x" "env" []).1 =
      (none, some (GoError.remote "throttled")) ∧
    (servicePackage.ListTags {} freshContext
      (Meta.awsClient ⟨stubFailing (GoError.remote "throttled")⟩) "arn:x").map (fun r => r.1) =
      some (some (GoError.remote "throttled")) :=
  have h := fetch_error_propagates_unchanged {} freshContext
    (stubFailing (GoError.remote "throttled")) "arn:x" "env" [] (GoError.remote "throttled")
    rfl rfl
  ⟨h.1, h.2.1, h.2.2.1⟩

/-! ## Round trip -/

/-- C3: when the stubbed List returns the mapping `M`, `listTags` returns no
error and a TagSet whose raw projection is `M`: the same entries, hence the
same value at every key; and `Tags (KeyValueTags M) = M` for every `M`. -/
theorem listTags_round_trip (ctx : Context) (conn : Client) (identifier : String)
    (optFns : List OptFn) (M : RawMap)
    (hList : conn.respond conn.calls ⟨⟨some identifier⟩, optFns⟩ = Except.ok ⟨M⟩) :
    (listTags ctx conn identifier optFns).1.2 = none ∧
    Tags (listTags ctx conn identifier optFns).1.1 = M ∧
    (∀ k, (Tags (listTags ctx conn identifier optFns).1.1).lookup k = M.lookup k) ∧
    (∀ k, k ∈ (Tags (listTags ctx conn identifier optFns).1.1).map Prod.fst ↔
      k ∈ M.map Prod.fst) ∧
    (∀ N : RawMap, Tags (KeyValueTags ctx N) = N) := by
  have h := listTags_ok ctx conn identifier optFns ⟨M⟩ hList
  have hT : Tags (listTags ctx conn identifier optFns).1.1 = M := by
    rw [h]
    rfl
  refine ⟨by rw [h], hT, ?_, ?_, fun N => rfl⟩
  · intro k
    rw [hT]
  · intro k
    rw [hT]

/-- Witness of C3 on the scenario of the specification: the stub returns
env=prod, team=infra, and `listTags` gives no error and a TagSet whose
projection is that mapping, with prod at the key env; for a stub returning
the empty mapping the projection is the empty mapping. -/
theorem listTags_round_trip_witness :
    ((listTags freshContext (stubReturning scenarioTags) "arn:x" []).1.2 = none ∧
      Tags (listTags freshContext (stubReturning scenarioTags) "arn:x" []).1.1 =
        [("env", "prod"), ("team", "infra")] ∧
      (Tags (listTags freshContext (stubReturning scenarioTags) "arn:x" []).1.1).lookup "env" =
        some "prod") ∧
    ((listTags freshContext (stubReturning []) "arn:x" []).1.2 = none ∧
      Tags (listTags freshContext (stubReturning []) "arn:x" []).1.1 = []) :=
  have h := listTags_round_trip freshContext (stubReturning scenarioTags) "arn:x" []
    scenarioTags rfl
  have h0 := listTags_round_trip freshContext (stubReturning []) "arn:x" [] [] rfl
  ⟨⟨h.1, h.2.1, (h.2.2.1 "env").trans (by decide)⟩, h0.1, h0.2.1⟩

/-! ## Publishing the observed tags -/

/-- C4: on a participating context, when List succeeds with the mapping `M`,
`ListTags` returns no error and the context afterwards is the input context
with `TagsOut` assigned (once) the present TagSet of `M` and `TagsIn` as it
was; the stored TagSet projects to `M`; for the empty `M` the slot is present
and holds the empty TagSet. -/
theorem ListTags_publishes_observed (p : servicePackage) (ctx : Context)
    (inContext : tftags.InContext) (conn : Client) (identifier : String) (M : RawMap)
    (hCtx : tftags.FromContext ctx = some inContext)
    (hList : conn.respond conn.calls ⟨⟨some identifier⟩, []⟩ = Except.ok ⟨M⟩) :
    (servicePackage.ListTags p ctx (Meta.awsClient ⟨conn⟩) identifier).map
        (fun r => (r.1, r.2.1)) =
      some (none,
        ⟨some ⟨inContext.TagsIn, some (KeyValueTags ctx M), inContext.tagsOutWrites + 1⟩⟩) ∧
    (servicePackage.ListTags p ctx (Meta.awsClient ⟨conn⟩) identifier).map
        (fun r => (observedTags r.2.1).map Tags) = some (some M) ∧
    (M = [] →
      (servicePackage.ListTags p ctx (Meta.awsClient ⟨conn⟩) identifier).map
        (fun r => observedTags r.2.1) = some (some ⟨[]⟩)) := by
  have hChan : ctx.tagChannel = some inContext := hCtx
  have h := servicePackage_ListTags_ok p ctx conn identifier M hList
  rw [hChan] at h
  rw [h]
  refine ⟨rfl, rfl, ?_⟩
  intro hM
  subst hM
  rfl

/-- Witness of C4 on the scenario of the specification: the stub lists no
tag; afterwards ObservedTags is present and holds the empty TagSet. -/
theorem ListTags_publishes_observed_witness :
    (servicePackage.ListTags {} freshContext (Meta.awsClient ⟨stubReturning []⟩) "arn:x").map
        (fun r => (r.1, r.2.1)) =
      some (none, ⟨some ⟨none, some ⟨[]⟩, 1⟩⟩) :=
  (ListTags_publishes_observed {} freshContext ⟨none, none, 0⟩ (stubReturning []) "arn:x" []
    rfl rfl).1

/-- C5: on a context that carries no tag channel, when List succeeds,
`ListTags` returns no error and the context afterwards is the input context:
nothing is written. -/
theorem ListTags_without_channel_is_noop (p : servicePackage) (ctx : Context) (conn : Client)
    (identifier : String) (M : RawMap)
    (hCtx : tftags.FromContext ctx = none)
    (hList : conn.respond conn.calls ⟨⟨some identifier⟩, []⟩ = Except.ok ⟨M⟩) :
    (servicePackage.ListTags p ctx (Meta.awsClient ⟨conn⟩) identifier).map
        (fun r => (r.1, r.2.1)) = some (none, ctx) ∧
    (servicePackage.ListTags p ctx (Meta.awsClient ⟨conn⟩) identifier).map
        (fun r => observedTags r.2.1) = some none := by
  have hChan : ctx.tagChannel = none := hCtx
  have h := servicePackage_ListTags_ok p ctx conn identifier M hList
  rw [hChan] at h
  rw [h]
  refine ⟨rfl, ?_⟩
  simp [observedTags, hCtx]

/-- Witness of C5: a context without tag channel and a stub listing the
scenario tags. -/
theorem ListTags_without_channel_is_noop_witness :
    (servicePackage.ListTags {} plainContext
      (Meta.awsClient ⟨stubReturning scenarioTags⟩) "arn:x").map
        (fun r => (r.1, r.2.1)) = some (none, plainContext) :=
  (ListTags_without_channel_is_noop {} plainContext (stubReturning scenarioTags) "arn:x"
    scenarioTags rfl rfl).1

/-- C6: for every context, when List fails with `E`, `ListTags` returns `E`
and the context afterwards is the input context, write counter included: no
slot is assigned, and the empty TagSet that `listTags` returns next to the
error is not stored. -/
theorem ListTags_failure_leaves_context (p : servicePackage) (ctx : Context) (conn : Client)
    (identifier : String) (E : GoError)
    (hList : conn.respond conn.calls ⟨⟨some identifier⟩, []⟩ = Except.error E) :
    (servicePackage.ListTags p ctx (Meta.awsClient ⟨conn⟩) identifier).map
        (fun r => (r.1, r.2.1)) = some (some E, ctx) ∧
    (servicePackage.ListTags p ctx (Meta.awsClient ⟨conn⟩) identifier).map
        (fun r => observedTags r.2.1) = some (observedTags ctx) ∧
    (servicePackage.ListTags p ctx (Meta.awsClient ⟨conn⟩) identifier).map
        (fun r => tagsOutWrites r.2.1) = some (tagsOutWrites ctx) ∧
    (listTags ctx conn identifier []).1 = (⟨[]⟩, some E) := by
  rw [servicePackage_ListTags_error p ctx conn identifier E hList,
    listTags_error ctx conn identifier [] E hList]
  exact ⟨rfl, rfl, rfl, rfl⟩

/-- Witness of C6: a participating context whose ObservedTags is absent and a
stub failing with the error throttled; the slot stays absent. -/
theorem ListTags_failure_leaves_context_witness :
    (servicePackage.ListTags {} freshContext
      (Meta.awsClient ⟨stubFailing (GoError.remote "throttled")⟩) "arn:x").map
        (fun r => (r.1, r.2.1)) = some (some (GoError.remote "throttled"), freshContext) ∧
    observedTags freshContext = none :=
  ⟨(ListTags_failure_leaves_context {} freshContext (stubFailing (GoError.remote "throttled"))
      "arn:x" (GoError.remote "throttled") rfl).1, rfl⟩

/-! ## Reading the declared tags, writing the observed tags -/

/-- C7: `getTagsIn` is a total function of the context and agrees with the
reference reading on every context: on a participating context whose
DeclaredTags is present with a TagSet that is not empty, the result is the
allocated map projecting that TagSet, every declared entry and nothing else;
when the context does not participate, or DeclaredTags is absent, or
DeclaredTags holds an empty TagSet, the result is the `nil` map, of length 0,
and not an allocated empty map.  The result depends on `TagsIn` alone, and as
an adapter operation `getTagsIn` leaves the threaded state as it was. -/
theorem getTagsIn_eq_reference (ctx : Context) (conn : Client)
    (tagsOut tagsOut2 : Option tftags.KeyValueTags) (writes writes2 : Nat)
    (tagsIn : Option tftags.KeyValueTags) :
    getTagsIn ctx = ReadDeclared_reference ctx ∧
    (∀ declared : tftags.KeyValueTags, declared.entries ≠ [] →
      getTagsIn ⟨some ⟨some declared, tagsOut, writes⟩⟩ = some (Tags declared) ∧
      (∀ k, (Tags declared).lookup k = declared.KeyValue k) ∧
      mapLen (getTagsIn ⟨some ⟨some declared, tagsOut, writes⟩⟩) = declared.entries.length) ∧
    getTagsIn ⟨some ⟨some ⟨[]⟩, tagsOut, writes⟩⟩ = none ∧
    getTagsIn ⟨some ⟨none, tagsOut, writes⟩⟩ = none ∧
    getTagsIn ⟨none⟩ = none ∧
    getTagsIn ⟨some ⟨some ⟨[]⟩, tagsOut, writes⟩⟩ ≠ some [] ∧
    mapLen (getTagsIn ⟨some ⟨some ⟨[]⟩, tagsOut, writes⟩⟩) = 0 ∧
    getTagsIn ⟨some ⟨tagsIn, tagsOut, writes⟩⟩ = getTagsIn ⟨some ⟨tagsIn, tagsOut2, writes2⟩⟩ ∧
    AdapterOp.apply ⟨ctx, conn⟩ AdapterOp.getTagsIn = ⟨ctx, conn⟩ := by
  have hNonEmpty : ∀ declared : tftags.KeyValueTags, declared.entries ≠ [] →
      getTagsIn ⟨some ⟨some declared, tagsOut, writes⟩⟩ = some (Tags declared) := by
    intro declared hne
    obtain ⟨entries⟩ := declared
    cases entries with
    | nil => exact absurd rfl hne
    | cons e rest =>
      simp [getTagsIn, tftags.FromContext, option.UnwrapOrDefault, Tags,
        tftags.KeyValueTags.Map]
  refine ⟨?_, ?_, rfl, rfl, rfl, ?_, rfl, rfl, rfl⟩
  · obtain ⟨chan⟩ := ctx
    cases chan with
    | none => rfl
    | some holder =>
      obtain ⟨tin, tout, n⟩ := holder
      cases tin with
      | none => rfl
      | some declared =>
        obtain ⟨entries⟩ := declared
        cases entries with
        | nil => rfl
        | cons e rest =>
          simp [getTagsIn, ReadDeclared_reference, tftags.FromContext, option.UnwrapOrDefault,
            Tags, tftags.KeyValueTags.Map]
  · intro declared hne
    refine ⟨hNonEmpty declared hne, fun k => rfl, ?_⟩
    rw [hNonEmpty declared hne]
    rfl
  · intro h
    cases h

/-- Witness of C7: with DeclaredTags holding env=prod, team=infra the result
is the allocated map of these two entries; with DeclaredTags holding an empty
TagSet the result is the `nil` map. -/
theorem getTagsIn_eq_reference_witness :
    getTagsIn ⟨some ⟨some ⟨scenarioTags⟩, none, 0⟩⟩ =
      some [("env", "prod"), ("team", "infra")] ∧
    mapLen (getTagsIn ⟨some ⟨some ⟨scenarioTags⟩, none, 0⟩⟩) = 2 ∧
    getTagsIn ⟨some ⟨some ⟨[]⟩, none, 0⟩⟩ = none :=
  have h := getTagsIn_eq_reference freshContext (stubReturning []) none none 0 0 none
  ⟨(h.2.1 ⟨scenarioTags⟩ (by decide)).1, (h.2.1 ⟨scenarioTags⟩ (by decide)).2.2, h.2.2.1⟩

/-- C8: `setTagsOut` agrees with the reference reading "construct a TagSet
from the raw mapping and assign it" on every context: on a participating
context the result is the input context with `TagsOut` assigned (once) the
present TagSet of the mapping, whatever `TagsOut` held before, with `TagsIn`
as it was, and the stored TagSet projects to the mapping; on a context without
tag channel nothing changes. -/
theorem setTagsOut_constructs_and_assigns (ctx : Context) (inContext : tftags.InContext)
    (m : RawMap) :
    setTagsOut ctx m = WriteObserved_reference ctx m ∧
    setTagsOut ⟨some inContext⟩ m =
      ⟨some ⟨inContext.TagsIn, some (KeyValueTags ⟨some inContext⟩ m),
        inContext.tagsOutWrites + 1⟩⟩ ∧
    (observedTags (setTagsOut ⟨some inContext⟩ m)).map Tags = some m ∧
    setTagsOut ⟨none⟩ m = ⟨none⟩ := by
  refine ⟨?_, rfl, rfl, rfl⟩
  obtain ⟨chan⟩ := ctx
  cases chan with
  | none => rfl
  | some holder => rfl

/-! ## Sequences of adapter operations -/

/-- One adapter operation on a participating context keeps it participating,
keeps `TagsIn`, and assigns `TagsOut` at most once, and not at all unless it
is `ListTags` or `setTagsOut`. -/
theorem apply_keeps_channel (w : World) (op : AdapterOp) (inContext : tftags.InContext)
    (hCtx : w.ctx = ⟨some inContext⟩) :
    ∃ after : tftags.InContext,
      (AdapterOp.apply w op).ctx = ⟨some after⟩ ∧
      after.TagsIn = inContext.TagsIn ∧
      inContext.tagsOutWrites ≤ after.tagsOutWrites ∧
      after.tagsOutWrites ≤ inContext.tagsOutWrites + (if op.assignsTagsOut then 1 else 0) := by
  obtain ⟨ctx, conn⟩ := w
  simp only at hCtx
  subst hCtx
  cases op with
  | ListTags identifier =>
    cases h : conn.respond conn.calls ⟨⟨some identifier⟩, []⟩ with
    | error E =>
      refine ⟨inContext, ?_, rfl, Nat.le_refl _, Nat.le_add_right _ _⟩
      simp only [AdapterOp.apply, servicePackage_ListTags_error {} _ conn identifier E h]
    | ok out =>
      obtain ⟨M⟩ := out
      refine ⟨⟨inContext.TagsIn, some (KeyValueTags ⟨some inContext⟩ M),
        inContext.tagsOutWrites + 1⟩, ?_, rfl, Nat.le_add_right _ _, Nat.le_refl _⟩
      simp only [AdapterOp.apply, servicePackage_ListTags_ok {} _ conn identifier M h]
  | setTagsOut tags =>
    exact ⟨⟨inContext.TagsIn, some (KeyValueTags ⟨some inContext⟩ tags),
      inContext.tagsOutWrites + 1⟩, rfl, rfl, Nat.le_add_right _ _, Nat.le_refl _⟩
  | getTagsIn => exact ⟨inContext, rfl, rfl, Nat.le_refl _, Nat.le_add_right _ _⟩
  | GetTag identifier key optFns =>
    exact ⟨inContext, rfl, rfl, Nat.le_refl _, Nat.le_add_right _ _⟩
  | listTags identifier optFns =>
    exact ⟨inContext, rfl, rfl, Nat.le_refl _, Nat.le_add_right _ _⟩

/-- Running a sequence extended by one operation is running the sequence and
then applying the operation. -/
theorem runOps_append_one (w : World) (ops : List AdapterOp) (op : AdapterOp) :
    runOps w (ops ++ [op]) = AdapterOp.apply (runOps w ops) op := by
  simp [runOps, List.foldl_append]

/-- C9, as stated, fails: on a fresh participating context, `ListTags` with a
stub listing the scenario tags assigns ObservedTags, and a following
`setTagsOut` assigns it again, replacing the TagSet; the slot has then been
written twice. -/
theorem TagsOut_assigned_twice :
    (runOps ⟨freshContext, stubReturning scenarioTags⟩ [AdapterOp.ListTags "arn:x"]).ctx =
      ⟨some ⟨none, some ⟨[("env", "prod"), ("team", "infra")]⟩, 1⟩⟩ ∧
    (runOps ⟨freshContext, stubReturning scenarioTags⟩
      [AdapterOp.ListTags "arn:x", AdapterOp.setTagsOut [("env", "dev")]]).ctx =
      ⟨some ⟨none, some ⟨[("env", "dev")]⟩, 2⟩⟩ ∧
    ¬ (tagsOutWrites (runOps ⟨freshContext, stubReturning scenarioTags⟩
        [AdapterOp.ListTags "arn:x", AdapterOp.setTagsOut [("env", "dev")]]).ctx
      ≤ tagsOutWrites freshContext + 1) := by
  decide

/-- C9, amended: for every participating context and every finite sequence of
adapter operations, the context stays participating, `TagsIn` is unchanged,
and the number of assignments made to `TagsOut` is at most the number of
`ListTags` and `setTagsOut` operations in the sequence; a `setTagsOut` after
any sequence assigns the slot once more and the slot then holds its
mapping. -/
theorem TagsOut_writes_bounded_by_writers (inContext : tftags.InContext) (conn : Client)
    (ops : List AdapterOp) (m : RawMap) :
    (∃ after : tftags.InContext,
      (runOps ⟨⟨some inContext⟩, conn⟩ ops).ctx = ⟨some after⟩ ∧
      after.TagsIn = inContext.TagsIn ∧
      inContext.tagsOutWrites ≤ after.tagsOutWrites ∧
      after.tagsOutWrites ≤ inContext.tagsOutWrites + ops.countP AdapterOp.assignsTagsOut) ∧
    tagsOutWrites (runOps ⟨⟨some inContext⟩, conn⟩ (ops ++ [AdapterOp.setTagsOut m])).ctx =
      tagsOutWrites (runOps ⟨⟨some inContext⟩, conn⟩ ops).ctx + 1 ∧
    (observedTags (runOps ⟨⟨some inContext⟩, conn⟩ (ops ++ [AdapterOp.setTagsOut m])).ctx).map
      Tags = some m := by
  have hSeq : ∀ (ops : List AdapterOp) (w : World) (start : tftags.InContext),
      w.ctx = ⟨some start⟩ →
      ∃ after : tftags.InContext,
        (runOps w ops).ctx = ⟨some after⟩ ∧
        after.TagsIn = start.TagsIn ∧
        start.tagsOutWrites ≤ after.tagsOutWrites ∧
        after.tagsOutWrites ≤ start.tagsOutWrites + ops.countP AdapterOp.assignsTagsOut := by
    intro ops
    induction ops with
    | nil =>
      intro w start hw
      exact ⟨start, hw, rfl, Nat.le_refl _, Nat.le_add_right _ _⟩
    | cons op rest ih =>
      intro w start hw
      obtain ⟨mid, hmid, hIn, hLo, hHi⟩ := apply_keeps_channel w op start hw
      obtain ⟨after, hafter, hIn2, hLo2, hHi2⟩ := ih (AdapterOp.apply w op) mid hmid
      refine ⟨after, hafter, hIn2.trans hIn, Nat.le_trans hLo hLo2, ?_⟩
      rw [List.countP_cons]
      omega
  obtain ⟨after, hafter, hIn, hLo, hHi⟩ := hSeq ops ⟨⟨some inContext⟩, conn⟩ inContext rfl
  refine ⟨⟨after, hafter, hIn, hLo, hHi⟩, ?_, ?_⟩
  · rw [runOps_append_one]
    simp only [AdapterOp.apply, hafter]
    rfl
  · rw [runOps_append_one]
    simp only [AdapterOp.apply, hafter]
    rfl

/-! ## Remote calls -/

/-- C10: each invocation of `listTags`, `GetTag` or `ListTags` leaves the
recording stub with exactly one more recorded call, whose resource ARN is the
caller's identifier (with the caller's options for `listTags` and `GetTag`,
with none for `ListTags`), whatever the call answers; and when that one call
fails, its error is the one returned. -/
theorem one_remote_call_per_invocation (p : servicePackage) (ctx : Context) (conn : Client)
    (identifier key : String) (optFns : List OptFn) :
    (listTags ctx conn identifier optFns).2.calls =
      conn.calls ++ [⟨⟨some identifier⟩, optFns⟩] ∧
    (GetTag ctx conn identifier key optFns).2.calls =
      conn.calls ++ [⟨⟨some identifier⟩, optFns⟩] ∧
    (servicePackage.ListTags p ctx (Meta.awsClient ⟨conn⟩) identifier).map
        (fun r => r.2.2.calls) = some (conn.calls ++ [⟨⟨some identifier⟩, []⟩]) ∧
    (∀ E, conn.respond conn.calls ⟨⟨some identifier⟩, optFns⟩ = Except.error E →
      (listTags ctx conn identifier optFns).1.2 = some E ∧
      (GetTag ctx conn identifier key optFns).1.2 = some E) ∧
    (∀ E, conn.respond conn.calls ⟨⟨some identifier⟩, []⟩ = Except.error E →
      (servicePackage.ListTags p ctx (Meta.awsClient ⟨conn⟩) identifier).map (fun r => r.1) =
        some (some E)) := by
  refine ⟨?_, ?_, ?_, ?_, ?_⟩
  · rw [listTags_client]
  · rw [GetTag_client, listTags_client]
  · cases h : conn.respond conn.calls ⟨⟨some identifier⟩, []⟩ with
    | error E => rw [servicePackage_ListTags_error p ctx conn identifier E h]; rfl
    | ok out =>
      obtain ⟨M⟩ := out
      rw [servicePackage_ListTags_ok p ctx conn identifier M h]
      rfl
  · intro E h
    rw [listTags_error ctx conn identifier optFns E h,
      GetTag_error ctx conn identifier key optFns E h]
    exact ⟨rfl, rfl⟩
  · intro E h
    rw [servicePackage_ListTags_error p ctx conn identifier E h]
    rfl

/-- Witness of C10: the stub fails its first call with the error throttled and
would answer a second call with the scenario tags; `GetTag` makes the one
call and returns the failure. -/
theorem one_remote_call_per_invocation_witness :
    (GetTag freshContext (stubFailingOnce (GoError.remote "throttled") scenarioTags)
      "arn:x" "env" []).2.calls = [⟨⟨some "arn:x"⟩, []⟩] ∧
    (GetTag freshContext (stubFailingOnce (GoError.remote "throttled") scenarioTags)
      "arn:x" "env" []).1.2 = some (GoError.remote "throttled") :=
  have h := one_remote_call_per_invocation {} freshContext
    (stubFailingOnce (GoError.remote "throttled") scenarioTags) "arn:x" "env" []
  ⟨h.2.1, (h.2.2.2.1 (GoError.remote "throttled") rfl).2⟩

end timestreaminfluxdb
